import Mathlib

/-!
# Epoch-driven membership synchronisation of a NeoFS storage node

A shallow embedding of `cmd/neofs-node/netmap.go`.

* The mutable `*cfg` of the Go code is passed explicitly.  The part of it that
  the new-epoch handlers read and write is `cfgCore`; the whole `cfg` adds the
  handler and parser registries (a handler is a closure over the core, so the
  registry cannot be a field of the type its handlers act on).
* The ledger client (`c.cfgNetmap.wrapper`) is an oracle with its own state:
  every call returns a result and a successor state, so that two calls with the
  same arguments may answer differently.
* Every observable effect (ledger call with its result, callback invocation,
  store to the epoch counter, log line) is appended to a ghost trace.
* A Go run-time fault (failed type assertion, integer division by zero, write
  to a nil map) and a fatal exit end the run; the outcome keeps the state
  reached at that point.
* `uint64` values are natural numbers.  The only arithmetic on them is `%`,
  which cannot overflow, and stores.
-/

namespace NeoFS

/-! ## Data model -/

/-- Node state of the netmap API, `netmap.NodeState`; the zero value is the undefined state. -/
inductive NodeState
  | Undefined
  | Offline
  | Online
  deriving DecidableEq, Repr

/-- Requested status of the control service, `control.NetmapStatus`. -/
inductive NetmapStatus
  | STATUS_UNDEFINED
  | ONLINE
  | OFFLINE
  deriving DecidableEq, Repr

/-- Byte slices. -/
abbrev Bytes := List Nat

/-- Go errors are represented by their message. -/
abbrev GoError := String

/-- Node descriptor, `netmap.NodeInfo`. -/
structure NodeInfo where
  address : String
  publicKey : Bytes
  attributes : List (String × String)
  state : NodeState
  deriving DecidableEq, Repr

/-- Getter `(*NodeInfo).State()`; like the API getter it accepts a nil receiver
and then yields the zero state. -/
def NodeInfo.State : Option NodeInfo → NodeState
  | some ni => ni.state
  | none => NodeState.Undefined

/-- Snapshot entry, `netmap.Node`: a node descriptor with placement data. -/
structure Node where
  ID : Nat
  NodeInfo : NodeInfo
  deriving DecidableEq, Repr

/-- Accessor `n.PublicKey()` of a snapshot entry (promoted from the embedded descriptor). -/
def Node.PublicKey (n : Node) : Bytes := n.NodeInfo.publicKey

/-- Membership snapshot, `netmap.Netmap`: the ordered collection of entries. -/
structure Netmap where
  Nodes : List Node
  deriving DecidableEq, Repr

/-- Events handed to handlers, `event.Event`: the new-epoch event carries an
epoch number; every other concrete event type is kept by name only. -/
inductive Event
  | NewEpoch (num : Nat)
  | Other (name : String)
  deriving DecidableEq, Repr

/-- Log levels used in the file. -/
inductive Level
  | Info
  | Warn
  | Error
  deriving DecidableEq, Repr

/-- Structured log fields (`zap.Uint64`, `zap.String`, `zap.Error`, `zap.Stringer`). -/
inductive Field
  | uint64 (key : String) (v : Nat)
  | str (key : String) (v : String)
  | err (e : GoError)
  | stringer (key : String) (st : NodeState)
  deriving DecidableEq, Repr

/-- Observable effects, in the order they happen. Ledger calls carry their result. -/
inductive Action
  | Epoch (r : Except GoError Nat)
  | GetNetMapByEpoch (epoch : Nat) (r : Except GoError Netmap)
  | AddPeer (ni : NodeInfo) (err : Option GoError)
  | UpdatePeerState (key : Bytes) (st : NodeState) (err : Option GoError)
  | handleLocalNodeInfo (ni : Option NodeInfo)
  | handleNodeInfoStatus (ni : Option NodeInfo)
  | setCurrentEpoch (v : Nat)
  | log (lvl : Level) (msg : String) (fields : List Field)
  | RegisterNetmapServiceServer

/-- The ways a run ends abnormally. -/
inductive Fault
  | typeAssertion
  | divideByZero
  | nilMapWrite
  | fatal (msg : GoError)
  deriving DecidableEq, Repr

/-- Outcome of a run over a state of type `σ`: normal completion, or a fault
together with the state reached when it happened. -/
inductive Res (σ : Type)
  | ok (s : σ)
  | fault (f : Fault) (s : σ)

/-- Sequencing: a fault ends the run. -/
def Res.bind {σ : Type} (r : Res σ) (k : σ → Res σ) : Res σ :=
  match r with
  | Res.ok s => k s
  | Res.fault f s => Res.fault f s

/-- Outcome over a larger state. -/
def Res.map {σ τ : Type} (g : σ → τ) : Res σ → Res τ
  | Res.ok s => Res.ok (g s)
  | Res.fault f s => Res.fault f (g s)

/-- The state an outcome ends in. -/
def Res.st {σ : Type} : Res σ → σ
  | Res.ok s => s
  | Res.fault _ s => s

/-- Whether the run ended abnormally. -/
def Res.aborted {σ : Type} : Res σ → Bool
  | Res.ok _ => false
  | Res.fault _ _ => true

/-- The fault of an outcome, if any. -/
def Res.fault? {σ : Type} : Res σ → Option Fault
  | Res.ok _ => none
  | Res.fault f _ => some f

/-- Process-wide epoch counter, `networkState` (an atomic `uint64`). -/
structure networkState where
  epoch : Nat
  deriving DecidableEq, Repr

def newNetworkState : networkState := { epoch := 0 }

def networkState.CurrentEpoch (s : networkState) : Nat := s.epoch

def networkState.setCurrentEpoch (_s : networkState) (v : Nat) : networkState := { epoch := v }

/-- The ledger client behind `c.cfgNetmap.wrapper`, over a ledger state `L`. -/
structure Wrapper (L : Type) where
  Epoch : L → Except GoError Nat × L
  GetNetMapByEpoch : Nat → L → Except GoError Netmap × L
  AddPeer : NodeInfo → L → Option GoError × L
  UpdatePeerState : Bytes → NodeState → L → Option GoError × L

/-- The part of `cfg` that startup, the control entry points and the new-epoch
handlers read and write. `S` is the state behind the local-status callbacks
`handleLocalNodeInfo` and `handleNodeInfoStatus` and the reader `localNodeInfo`;
these three methods of `cfg` are declared elsewhere in the repository and are taken as
parameters. `key` stands for `crypto.MarshalPublicKey(&c.key.PublicKey)`. -/
structure cfgCore (L S : Type) where
  key : Bytes
  localAddr : String
  attributes : List (String × String)
  reBootstrapEnabled : Bool
  reBootstrapInterval : Nat
  state : networkState
  wrapper : Wrapper L
  ledger : L
  handleLocalNodeInfo : Option NodeInfo → S → S
  handleNodeInfoStatus : Option NodeInfo → S → S
  localNodeInfo : S → NodeInfo
  localSt : S
  trace : List Action

/-- Event handler, `event.Handler`. -/
abbrev Handler (L S : Type) := Event → cfgCore L S → Res (cfgCore L S)

/-- Go map: `none` is the nil map; a missing key reads as absent. -/
abbrev GoMap (K V : Type) := Option (K → Option V)

/-- Allocation `make(map[K]V, n)`. -/
def GoMap.make {K V : Type} : GoMap K V := some (fun _ => none)

/-- Read `m[k]`, with `zero` the zero value of the element type (also on a nil map). -/
def GoMap.get {K V : Type} (m : GoMap K V) (k : K) (zero : V) : V :=
  match m with
  | none => zero
  | some f => (f k).getD zero

/-- Assignment `m[k] = v`; `none` when the map is nil (Go faults). -/
def GoMap.set {K V : Type} [DecidableEq K] (m : GoMap K V) (k : K) (v : V) : Option (GoMap K V) :=
  match m with
  | none => none
  | some f => some (some (fun j => if j = k then some v else f j))

/-- The whole node configuration: the core and the two registries. `T` is
`event.Type` and `P` is `event.Parser`, both declared elsewhere in the repository. -/
structure cfg (T P L S : Type) where
  core : cfgCore L S
  subscribers : GoMap T (List (Handler L S))
  parsers : GoMap T P

/-! ## Primitive steps on the core -/

section Core

variable {L S : Type}

/-- Reader `c.cfgNetmap.state.CurrentEpoch()`. -/
def cfgCore.CurrentEpoch (c : cfgCore L S) : Nat := c.state.CurrentEpoch

/-- Store `c.cfgNetmap.state.setCurrentEpoch(v)`. -/
def cfgCore.setCurrentEpoch (c : cfgCore L S) (v : Nat) : cfgCore L S :=
  { c with state := c.state.setCurrentEpoch v, trace := c.trace ++ [Action.setCurrentEpoch v] }

/-- Log line `c.log.<lvl>(msg, fields...)`. -/
def cfgCore.log (c : cfgCore L S) (lvl : Level) (msg : String) (fields : List Field) : cfgCore L S :=
  { c with trace := c.trace ++ [Action.log lvl msg fields] }

/-- Ledger call `c.cfgNetmap.wrapper.Epoch()`. -/
def cfgCore.callEpoch (c : cfgCore L S) : Except GoError Nat × cfgCore L S :=
  let r := c.wrapper.Epoch c.ledger
  (r.1, { c with ledger := r.2, trace := c.trace ++ [Action.Epoch r.1] })

/-- Ledger call `c.cfgNetmap.wrapper.GetNetMapByEpoch(epoch)`. -/
def cfgCore.callGetNetMapByEpoch (c : cfgCore L S) (epoch : Nat) :
    Except GoError Netmap × cfgCore L S :=
  let r := c.wrapper.GetNetMapByEpoch epoch c.ledger
  (r.1, { c with ledger := r.2, trace := c.trace ++ [Action.GetNetMapByEpoch epoch r.1] })

/-- Ledger call `c.cfgNetmap.wrapper.AddPeer(ni)`. -/
def cfgCore.callAddPeer (c : cfgCore L S) (ni : NodeInfo) : Option GoError × cfgCore L S :=
  let r := c.wrapper.AddPeer ni c.ledger
  (r.1, { c with ledger := r.2, trace := c.trace ++ [Action.AddPeer ni r.1] })

/-- Ledger call `c.cfgNetmap.wrapper.UpdatePeerState(key, st)`. -/
def cfgCore.callUpdatePeerState (c : cfgCore L S) (key : Bytes) (st : NodeState) :
    Option GoError × cfgCore L S :=
  let r := c.wrapper.UpdatePeerState key st c.ledger
  (r.1, { c with ledger := r.2, trace := c.trace ++ [Action.UpdatePeerState key st r.1] })

/-- Callback invocation `c.handleLocalNodeInfo(ni)`. -/
def cfgCore.callHandleLocalNodeInfo (c : cfgCore L S) (ni : Option NodeInfo) : cfgCore L S :=
  { c with localSt := c.handleLocalNodeInfo ni c.localSt,
           trace := c.trace ++ [Action.handleLocalNodeInfo ni] }

/-- Callback invocation `c.handleNodeInfoStatus(ni)`. -/
def cfgCore.callHandleNodeInfoStatus (c : cfgCore L S) (ni : Option NodeInfo) : cfgCore L S :=
  { c with localSt := c.handleNodeInfoStatus ni c.localSt,
           trace := c.trace ++ [Action.handleNodeInfoStatus ni] }

/-- Service registration `netmapGRPC.RegisterNetmapServiceServer(...)`; only the fact is recorded. -/
def cfgCore.registerNetmapService (c : cfgCore L S) : cfgCore L S :=
  { c with trace := c.trace ++ [Action.RegisterNetmapServiceServer] }

/-- Modelled from the spec: `toOnlineLocalNodeInfo` is a method of `cfg` declared
elsewhere in the repository; it constructs the local node descriptor marked Online. -/
def toOnlineLocalNodeInfo (c : cfgCore L S) : NodeInfo :=
  { c.localNodeInfo c.localSt with state := NodeState.Online }

/-- Wrapping `errors.Wrap(err, msg)`: nil stays nil, otherwise the message is put in front. -/
def errorsWrap (err : Option GoError) (msg : String) : Option GoError :=
  match err with
  | none => none
  | some e => some (msg ++ ": " ++ e)

/-- Modelled from the spec: `fatalOnErr` is declared elsewhere in the repository; a non-nil
error is fatal to process startup and aborts it, a nil error lets it go on. -/
def fatalOnErr (err : Option GoError) (c : cfgCore L S) : Res (cfgCore L S) :=
  match err with
  | none => Res.ok c
  | some e => Res.fault (Fault.fatal e) c

/-! ## Snapshot lookup -/

/-- The loop of `localNodeInfoFromNetmap`: the descriptor of the first entry, in
snapshot order, whose public key equals `key` byte for byte; nil when there is none. -/
def localNodeInfoFromNetmap.loop (key : Bytes) : List Node → Option NodeInfo
  | [] => none
  | n :: rest => if n.PublicKey = key then some n.NodeInfo else localNodeInfoFromNetmap.loop key rest

def localNodeInfoFromNetmap (c : cfgCore L S) (nm : Netmap) : Option NodeInfo :=
  localNodeInfoFromNetmap.loop c.key nm.Nodes

def netmapLocalNodeState (c : cfgCore L S) (epoch : Nat) :
    Except GoError (Option NodeInfo) × cfgCore L S :=
  let r := c.callGetNetMapByEpoch epoch
  match r.1 with
  | Except.error err => (Except.error err, r.2)
  | Except.ok nm => (Except.ok (localNodeInfoFromNetmap r.2 nm), r.2)

/-! ## Startup and control entry points -/

def initState (c : cfgCore L S) : Res (cfgCore L S) :=
  let r := c.callEpoch
  match r.1 with
  | Except.error err =>
    fatalOnErr (errorsWrap (some err) "could not initialize current epoch number") r.2
  | Except.ok epoch =>
    let r2 := netmapLocalNodeState r.2 epoch
    match r2.1 with
    | Except.error err => fatalOnErr (errorsWrap (some err) "could not init network state") r2.2
    | Except.ok ni =>
      let c1 := r2.2.callHandleNodeInfoStatus ni
      let c2 := c1.log Level.Info "initial network state"
        [Field.uint64 "epoch" epoch, Field.stringer "state" (NodeInfo.State ni)]
      Res.ok (c2.setCurrentEpoch epoch)

def bootstrapNode (c : cfgCore L S) : Res (cfgCore L S) :=
  (initState c).bind fun c1 =>
    let r := c1.callAddPeer (toOnlineLocalNodeInfo c1)
    fatalOnErr (errorsWrap r.1 "bootstrap error") r.2

def goOffline (c : cfgCore L S) : cfgCore L S :=
  let r := c.callUpdatePeerState c.key NodeState.Offline
  match r.1 with
  | some err => r.2.log Level.Error "could not go offline" [Field.str "error" err]
  | none => r.2.log Level.Info "request to go offline successfully sent" []

def SetNetmapStatus (c : cfgCore L S) (st : NetmapStatus) : Option GoError × cfgCore L S :=
  if st = NetmapStatus.ONLINE then
    c.callAddPeer (toOnlineLocalNodeInfo c)
  else
    let apiState := if st = NetmapStatus.OFFLINE then NodeState.Offline else NodeState.Undefined
    c.callUpdatePeerState c.key apiState

/-! ## The three new-epoch handlers registered by `initNetmapService` -/

/-- First handler (lines 62-64): epoch advance. -/
def epochAdvanceHandler : Handler L S := fun ev c =>
  match ev with
  | Event.NewEpoch num => Res.ok (c.setCurrentEpoch num)
  | Event.Other _ => Res.fault Fault.typeAssertion c

/-- Second handler (lines 67-76): periodic re-announcement. The modulus is
taken first; a zero divisor is a run-time fault. -/
def reBootstrapHandler : Handler L S := fun ev c =>
  match ev with
  | Event.NewEpoch n =>
    if c.reBootstrapInterval = 0 then Res.fault Fault.divideByZero c
    else if n % c.reBootstrapInterval = 0 then
      let r := c.callAddPeer (toOnlineLocalNodeInfo c)
      match r.1 with
      | some err => Res.ok (r.2.log Level.Warn "can\x27t send re-bootstrap tx" [Field.err err])
      | none => Res.ok r.2
    else Res.ok c
  | Event.Other _ => Res.fault Fault.typeAssertion c

/-- Third handler (lines 79-93): status reconciliation. -/
def statusReconcileHandler : Handler L S := fun ev c =>
  match ev with
  | Event.NewEpoch e =>
    let r := netmapLocalNodeState c e
    match r.1 with
    | Except.error err =>
      Res.ok (r.2.log Level.Error "could not update node state on new epoch"
        [Field.uint64 "epoch" e, Field.str "error" err])
    | Except.ok ni => Res.ok (r.2.callHandleLocalNodeInfo ni)
  | Event.Other _ => Res.fault Fault.typeAssertion c

end Core

/-! ## Registries and wiring -/

section Registry

variable {T P L S : Type} [DecidableEq T]

/-- Registration of a handler. `typeFromString` is `event.TypeFromString`, declared elsewhere in the repository. -/
def addNetmapNotificationHandler (typeFromString : String → T) (c : cfg T P L S)
    (sTyp : String) (h : Handler L S) : Res (cfg T P L S) :=
  let typ := typeFromString sTyp
  let c1 := if c.subscribers.isNone then { c with subscribers := GoMap.make } else c
  match GoMap.set c1.subscribers typ (GoMap.get c1.subscribers typ [] ++ [h]) with
  | none => Res.fault Fault.nilMapWrite c1
  | some m => Res.ok { c1 with subscribers := m }

/-- Registration of the parser of a tag. -/
def setNetmapNotificationParser (typeFromString : String → T) (c : cfg T P L S)
    (sTyp : String) (p : P) : Res (cfg T P L S) :=
  let typ := typeFromString sTyp
  let c1 := if c.parsers.isNone then { c with parsers := GoMap.make } else c
  match GoMap.set c1.parsers typ p with
  | none => Res.fault Fault.nilMapWrite c1
  | some m => Res.ok { c1 with parsers := m }

/-- Registration on the new-epoch tag. `newEpochNotification` is a constant declared elsewhere in the repository. -/
def addNewEpochNotificationHandler (typeFromString : String → T) (newEpochNotification : String)
    (c : cfg T P L S) (h : Handler L S) : Res (cfg T P L S) :=
  addNetmapNotificationHandler typeFromString c newEpochNotification h

def initNetmapService (typeFromString : String → T) (newEpochNotification : String)
    (c : cfg T P L S) : Res (cfg T P L S) :=
  let peerInfo : NodeInfo :=
    { address := c.core.localAddr, publicKey := c.core.key,
      attributes := c.core.attributes, state := NodeState.Offline }
  let c0 : cfg T P L S :=
    { c with core := (c.core.callHandleLocalNodeInfo (some peerInfo)).registerNetmapService }
  (addNewEpochNotificationHandler typeFromString newEpochNotification c0 epochAdvanceHandler).bind
    fun c1 =>
      (if c1.core.reBootstrapEnabled then
        addNewEpochNotificationHandler typeFromString newEpochNotification c1 reBootstrapHandler
      else Res.ok c1).bind
        fun c2 =>
          addNewEpochNotificationHandler typeFromString newEpochNotification c2
            statusReconcileHandler

/-- Modelled from the spec: the event dispatcher is declared elsewhere in the repository.
Handlers of one event run sequentially, each completing before the next starts,
in registration order; a fault in one ends the run. -/
def runHandlers : List (Handler L S) → Event → cfgCore L S → Res (cfgCore L S)
  | [], _, c => Res.ok c
  | h :: hs, ev, c => (h ev c).bind (runHandlers hs ev)

/-- Modelled from the spec: delivery of one decoded event to every handler
registered for the tag `sTyp`. -/
def deliver (typeFromString : String → T) (sTyp : String) (ev : Event) (c : cfg T P L S) :
    Res (cfg T P L S) :=
  (runHandlers (GoMap.get c.subscribers (typeFromString sTyp) []) ev c.core).map
    fun k => { c with core := k }

/-- Modelled from the spec: events are delivered one at a time, the next one
after the handlers of the previous one have completed. -/
def deliverAll (typeFromString : String → T) (sTyp : String) :
    List Event → cfg T P L S → Res (cfg T P L S)
  | [], c => Res.ok c
  | ev :: evs, c => (deliver typeFromString sTyp ev c).bind (deliverAll typeFromString sTyp evs)

end Registry

/-! ## The operations as the spec words them -/

/-- The operation `Bootstrap()` in the words of the spec: it constructs the
local node descriptor marked Online and calls `AddPeer`; the error of the call
is its result. -/
def Bootstrap_spec {L S : Type} (c : cfgCore L S) : Option GoError × cfgCore L S :=
  let ni : NodeInfo := { c.localNodeInfo c.localSt with state := NodeState.Online }
  let r := c.wrapper.AddPeer ni c.ledger
  (r.1, { c with ledger := r.2, trace := c.trace ++ [Action.AddPeer ni r.1] })

/-! ## Reading the trace -/

/-- Whether an effect is an `AddPeer` call. -/
def Action.isAddPeer : Action → Bool
  | Action.AddPeer _ _ => true
  | _ => false

/-- The handlers that `initNetmapService` registers on the new-epoch tag, in
registration order, when the re-bootstrap flag reads `enabled` at registration. -/
def newEpochHandlers {L S : Type} (enabled : Bool) : List (Handler L S) :=
  epochAdvanceHandler :: ((if enabled then [reBootstrapHandler] else []) ++ [statusReconcileHandler])

/-- What the effects `seg` of one delivered new-epoch event with epoch `n` look
like, for a re-bootstrap flag `enabled` and interval `k`: one `AddPeer` call
when `enabled` and `n % k = 0` and none otherwise; every `AddPeer` call carries a
descriptor marked Online; and when the snapshot fetch of epoch `n` failed, the
failure is logged with the epoch number and the local-status callback is not
invoked. -/
def eventEffects (enabled : Bool) (k n : Nat) (seg : List Action) : Prop :=
  (seg.filter Action.isAddPeer).length = (if enabled = true ∧ n % k = 0 then 1 else 0) ∧
  (∀ ni r, Action.AddPeer ni r ∈ seg → ni.state = NodeState.Online) ∧
  (∀ err, Action.GetNetMapByEpoch n (Except.error err) ∈ seg →
    (∀ ni, Action.handleLocalNodeInfo ni ∉ seg) ∧
    Action.log Level.Error "could not update node state on new epoch"
      [Field.uint64 "epoch" n, Field.str "error" err] ∈ seg)

/-- The effects of one re-announcement with descriptor `ni` whose `AddPeer` call
answered `r`: the call, followed by a warning when the call failed. -/
def reAnnouncement (ni : NodeInfo) (r : Option GoError) : List Action :=
  match r with
  | none => [Action.AddPeer ni none]
  | some m => [Action.AddPeer ni (some m),
      Action.log Level.Warn "can\x27t send re-bootstrap tx" [Field.err m]]

/-! ## Concrete configurations used to instantiate the theorems -/

/-- A ledger without state that answers every call with the given results. -/
def exWrapper (epoch : Except GoError Nat) (nm : Except GoError Netmap) (addErr : Option GoError) :
    Wrapper Unit :=
  { Epoch := fun l => (epoch, l)
    GetNetMapByEpoch := fun _ l => (nm, l)
    AddPeer := fun _ l => (addErr, l)
    UpdatePeerState := fun _ _ l => (none, l) }

/-- The descriptor of the example node with the given state. -/
def exInfo (st : NodeState) : NodeInfo :=
  { address := "/ip4/10.0.0.1/tcp/8080", publicKey := [2, 7, 9], attributes := [], state := st }

/-- A descriptor of another node. -/
def exOtherInfo (st : NodeState) : NodeInfo :=
  { address := "/ip4/10.0.0.2/tcp/8080", publicKey := [3, 1, 4], attributes := [], state := st }

/-- A snapshot in which the example node is the second entry, Online. -/
def exSnapshotPresent : Netmap :=
  { Nodes := [{ ID := 0, NodeInfo := exOtherInfo NodeState.Online },
              { ID := 1, NodeInfo := exInfo NodeState.Online }] }

/-- A snapshot without the example node. -/
def exSnapshotAbsent : Netmap :=
  { Nodes := [{ ID := 0, NodeInfo := exOtherInfo NodeState.Online }] }

/-- A ledger at epoch 7 whose snapshots hold the example node. -/
def exLedgerPresent : Wrapper Unit :=
  exWrapper (Except.ok 7) (Except.ok exSnapshotPresent) none

/-- A ledger at epoch 7 whose snapshots do not hold the example node. -/
def exLedgerAbsent : Wrapper Unit :=
  exWrapper (Except.ok 7) (Except.ok exSnapshotAbsent) none

/-- A ledger whose snapshot fetch fails. -/
def exLedgerFetchFails : Wrapper Unit :=
  exWrapper (Except.ok 7) (Except.error "connection refused") none

/-- An example core: the callback state is the last descriptor handed to a
callback, the epoch counter is 0 and the trace is empty. -/
def exCore (enabled : Bool) (interval : Nat) (w : Wrapper Unit) :
    cfgCore Unit (Option NodeInfo) :=
  { key := [2, 7, 9]
    localAddr := "/ip4/10.0.0.1/tcp/8080"
    attributes := []
    reBootstrapEnabled := enabled
    reBootstrapInterval := interval
    state := newNetworkState
    wrapper := w
    ledger := ()
    handleLocalNodeInfo := fun ni _ => ni
    handleNodeInfoStatus := fun ni _ => ni
    localNodeInfo := fun s => s.getD (exInfo NodeState.Offline)
    localSt := none
    trace := [] }

/-- An example configuration with nil registries; tags are their names. -/
def exCfg (enabled : Bool) (interval : Nat) (w : Wrapper Unit) :
    cfg String Unit Unit (Option NodeInfo) :=
  { core := exCore enabled interval w, subscribers := none, parsers := none }

/-! ## Auxiliary facts -/

section Lemmas

variable {T P L S : Type}

theorem loop_eq_find (key : Bytes) (nodes : List Node) :
    localNodeInfoFromNetmap.loop key nodes
      = (nodes.find? (fun n => decide (n.PublicKey = key))).map (fun n => n.NodeInfo) := by
  induction nodes with
  | nil => rfl
  | cons n rest ih =>
    by_cases h : n.PublicKey = key
    · simp [localNodeInfoFromNetmap.loop, List.find?, h]
    · simp [localNodeInfoFromNetmap.loop, List.find?, h, ih]

/-- Symbolic run of `initState` when both ledger reads succeed. -/
theorem initState_ok (c : cfgCore L S) (v : Nat) (l1 : L) (nm : Netmap) (l2 : L)
    (hEpoch : c.wrapper.Epoch c.ledger = (Except.ok v, l1))
    (hFetch : c.wrapper.GetNetMapByEpoch v l1 = (Except.ok nm, l2)) :
    ∃ c1, initState c = Res.ok c1 ∧ c1.CurrentEpoch = v ∧ (c1.CurrentEpoch = 0 ↔ v = 0) ∧
      c1.trace = c.trace ++
        [Action.Epoch (Except.ok v), Action.GetNetMapByEpoch v (Except.ok nm),
         Action.handleNodeInfoStatus (localNodeInfoFromNetmap c nm),
         Action.log Level.Info "initial network state"
           [Field.uint64 "epoch" v,
            Field.stringer "state" (NodeInfo.State (localNodeInfoFromNetmap c nm))],
         Action.setCurrentEpoch v] ∧
      c1.localSt = c.handleNodeInfoStatus (localNodeInfoFromNetmap c nm) c.localSt ∧
      c1.ledger = l2 := by
  simp only [initState, cfgCore.callEpoch, hEpoch, netmapLocalNodeState,
    cfgCore.callGetNetMapByEpoch, hFetch]
  refine ⟨_, rfl, ?_, ?_, ?_, ?_, ?_⟩ <;>
    simp [cfgCore.setCurrentEpoch, cfgCore.log, cfgCore.callHandleNodeInfoStatus,
      cfgCore.CurrentEpoch, networkState.CurrentEpoch, networkState.setCurrentEpoch,
      localNodeInfoFromNetmap]

/-- Closed form of `initState` when both ledger reads succeed. -/
theorem initState_eq (c : cfgCore L S) (v : Nat) (l1 : L) (nm : Netmap) (l2 : L)
    (hEpoch : c.wrapper.Epoch c.ledger = (Except.ok v, l1))
    (hFetch : c.wrapper.GetNetMapByEpoch v l1 = (Except.ok nm, l2)) :
    initState c = Res.ok
      { c with
        ledger := l2
        state := { epoch := v }
        localSt := c.handleNodeInfoStatus (localNodeInfoFromNetmap c nm) c.localSt
        trace := c.trace ++
          [Action.Epoch (Except.ok v), Action.GetNetMapByEpoch v (Except.ok nm),
           Action.handleNodeInfoStatus (localNodeInfoFromNetmap c nm),
           Action.log Level.Info "initial network state"
             [Field.uint64 "epoch" v,
              Field.stringer "state" (NodeInfo.State (localNodeInfoFromNetmap c nm))],
           Action.setCurrentEpoch v] } := by
  simp [initState, cfgCore.callEpoch, hEpoch, netmapLocalNodeState,
    cfgCore.callGetNetMapByEpoch, hFetch, cfgCore.setCurrentEpoch, cfgCore.log,
    cfgCore.callHandleNodeInfoStatus, networkState.setCurrentEpoch, localNodeInfoFromNetmap]

/-- Symbolic run of the re-announcement handler for a non-zero interval. -/
theorem reBootstrapHandler_run (k : cfgCore L S) (n : Nat) (h0 : k.reBootstrapInterval ≠ 0) :
    ∃ k2 seg, reBootstrapHandler (Event.NewEpoch n) k = Res.ok k2 ∧
      k2.state = k.state ∧ k2.reBootstrapInterval = k.reBootstrapInterval ∧
      k2.trace = k.trace ++ seg ∧
      seg.filter Action.isAddPeer = (if n % k.reBootstrapInterval = 0 then
        [Action.AddPeer (toOnlineLocalNodeInfo k)
          (k.wrapper.AddPeer (toOnlineLocalNodeInfo k) k.ledger).1] else []) ∧
      (∀ ni r, Action.AddPeer ni r ∈ seg → ni.state = NodeState.Online) ∧
      (∀ e r, Action.GetNetMapByEpoch e r ∉ seg) ∧
      (∀ ni, Action.handleLocalNodeInfo ni ∉ seg) := by
  simp only [reBootstrapHandler, h0, if_false]
  by_cases hd : n % k.reBootstrapInterval = 0
  · simp only [hd, if_true]
    split
    · next err herr =>
      refine ⟨_, [Action.AddPeer (toOnlineLocalNodeInfo k) (some err),
        Action.log Level.Warn "can\x27t send re-bootstrap tx" [Field.err err]], rfl, ?_, ?_, ?_, ?_, ?_,
        ?_, ?_⟩
      · simp [cfgCore.log, cfgCore.callAddPeer]
      · simp [cfgCore.log, cfgCore.callAddPeer]
      · simp only [cfgCore.callAddPeer] at herr
        simp [cfgCore.log, cfgCore.callAddPeer, herr]
      · simp only [cfgCore.callAddPeer] at herr
        simp [Action.isAddPeer, herr]
      · intro ni r hmem
        simp at hmem
        rw [hmem.1]
        rfl
      · simp
      · simp
    · next hnone =>
      refine ⟨_, [Action.AddPeer (toOnlineLocalNodeInfo k) none], rfl, ?_, ?_, ?_, ?_, ?_, ?_, ?_⟩
      · simp [cfgCore.callAddPeer]
      · simp [cfgCore.callAddPeer]
      · simp only [cfgCore.callAddPeer] at hnone
        simp [cfgCore.callAddPeer, hnone]
      · simp only [cfgCore.callAddPeer] at hnone
        simp [Action.isAddPeer, hnone]
      · intro ni r hmem
        simp at hmem
        rw [hmem.1]
        rfl
      · simp
      · simp
  · simp only [hd, if_false]
    exact ⟨_, [], rfl, rfl, rfl, by simp, by simp, by simp, by simp, by simp⟩

/-- Symbolic run of the status-reconciliation handler. -/
theorem statusReconcileHandler_run (k : cfgCore L S) (n : Nat) :
    ∃ k2 seg, statusReconcileHandler (Event.NewEpoch n) k = Res.ok k2 ∧
      k2.state = k.state ∧ k2.reBootstrapInterval = k.reBootstrapInterval ∧
      k2.trace = k.trace ++ seg ∧
      seg.filter Action.isAddPeer = [] ∧
      (∀ ni r, Action.AddPeer ni r ∉ seg) ∧
      (∀ err, Action.GetNetMapByEpoch n (Except.error err) ∈ seg →
        (∀ ni, Action.handleLocalNodeInfo ni ∉ seg) ∧
        Action.log Level.Error "could not update node state on new epoch"
          [Field.uint64 "epoch" n, Field.str "error" err] ∈ seg) := by
  rcases hf : k.wrapper.GetNetMapByEpoch n k.ledger with ⟨r, l⟩
  cases r with
  | error err =>
    simp only [statusReconcileHandler, netmapLocalNodeState, cfgCore.callGetNetMapByEpoch, hf]
    refine ⟨_, [Action.GetNetMapByEpoch n (Except.error err),
      Action.log Level.Error "could not update node state on new epoch"
        [Field.uint64 "epoch" n, Field.str "error" err]], rfl, ?_, ?_, ?_, ?_, ?_, ?_⟩ <;>
      simp [cfgCore.log, Action.isAddPeer]
  | ok nm =>
    simp only [statusReconcileHandler, netmapLocalNodeState, cfgCore.callGetNetMapByEpoch, hf]
    refine ⟨_, [Action.GetNetMapByEpoch n (Except.ok nm),
      Action.handleLocalNodeInfo (localNodeInfoFromNetmap.loop k.key nm.Nodes)],
      rfl, ?_, ?_, ?_, ?_, ?_, ?_⟩ <;>
      simp [cfgCore.callHandleLocalNodeInfo, Action.isAddPeer, localNodeInfoFromNetmap]

/-- Symbolic run of the registered handlers on one new-epoch event. -/
theorem runHandlers_newEpoch (enabled : Bool) (k : cfgCore L S) (n : Nat)
    (hk : enabled = true → k.reBootstrapInterval ≠ 0) :
    ∃ k2 seg, runHandlers (newEpochHandlers enabled) (Event.NewEpoch n) k = Res.ok k2 ∧
      k2.CurrentEpoch = n ∧ k2.reBootstrapInterval = k.reBootstrapInterval ∧
      k2.trace = k.trace ++ seg ∧
      seg.filter Action.isAddPeer = (if enabled = true ∧ n % k.reBootstrapInterval = 0 then
        [Action.AddPeer (toOnlineLocalNodeInfo k)
          (k.wrapper.AddPeer (toOnlineLocalNodeInfo k) k.ledger).1] else []) ∧
      eventEffects enabled k.reBootstrapInterval n seg := by
  cases enabled with
  | false =>
    obtain ⟨k3, s3, h3, hst, hint, htr, hcnt, hno, hc⟩ :=
      statusReconcileHandler_run (k.setCurrentEpoch n) n
    refine ⟨k3, Action.setCurrentEpoch n :: s3, ?_, ?_, ?_, ?_, ?_, ?_, ?_, ?_⟩
    · simp only [newEpochHandlers, runHandlers, epochAdvanceHandler, Res.bind, if_false,
        List.nil_append, Bool.false_eq_true, h3]
    · simp [cfgCore.CurrentEpoch, hst, cfgCore.setCurrentEpoch, networkState.CurrentEpoch,
        networkState.setCurrentEpoch]
    · simp [hint, cfgCore.setCurrentEpoch]
    · simp [htr, cfgCore.setCurrentEpoch]
    · simp [Action.isAddPeer, hcnt]
    · simp [Action.isAddPeer, hcnt]
    · intro ni r hmem
      simp at hmem
      exact absurd hmem (hno ni r)
    · intro err hmem
      simp at hmem
      obtain ⟨h1, h2⟩ := hc err hmem
      exact ⟨fun ni => by simp [h1 ni], by simp [h2]⟩
  | true =>
    have h0 : (k.setCurrentEpoch n).reBootstrapInterval ≠ 0 := hk rfl
    obtain ⟨k2, s2, h2, hst2, hint2, htr2, hcnt2, hon2, hnf2, hnh2⟩ :=
      reBootstrapHandler_run (k.setCurrentEpoch n) n h0
    obtain ⟨k3, s3, h3, hst, hint, htr, hcnt, hno, hc⟩ := statusReconcileHandler_run k2 n
    have hi : (k.setCurrentEpoch n).reBootstrapInterval = k.reBootstrapInterval := rfl
    have hto : toOnlineLocalNodeInfo (k.setCurrentEpoch n) = toOnlineLocalNodeInfo k := rfl
    have hl : (k.setCurrentEpoch n).ledger = k.ledger := rfl
    have hw : (k.setCurrentEpoch n).wrapper = k.wrapper := rfl
    rw [hi, hto, hl, hw] at hcnt2
    refine ⟨k3, Action.setCurrentEpoch n :: (s2 ++ s3), ?_, ?_, ?_, ?_, ?_, ?_, ?_, ?_⟩
    · simp only [newEpochHandlers, runHandlers, epochAdvanceHandler, Res.bind, if_true,
        List.cons_append, List.nil_append, h2, h3]
    · simp [cfgCore.CurrentEpoch, hst, hst2, cfgCore.setCurrentEpoch, networkState.CurrentEpoch,
        networkState.setCurrentEpoch]
    · simp [hint, hint2, cfgCore.setCurrentEpoch]
    · simp [htr, htr2, cfgCore.setCurrentEpoch]
    · simp [Action.isAddPeer, hcnt, hcnt2]
    · simp only [List.filter_cons, Action.isAddPeer, List.filter_append, hcnt, hcnt2, true_and,
        List.append_nil, Bool.false_eq_true, if_false]
      split <;> simp
    · intro ni r hmem
      simp at hmem
      rcases hmem with hmem | hmem
      · exact hon2 ni r hmem
      · exact absurd hmem (hno ni r)
    · intro err hmem
      simp at hmem
      rcases hmem with hmem | hmem
      · exact absurd hmem (hnf2 n _)
      · obtain ⟨h1, h2⟩ := hc err hmem
        exact ⟨fun ni => by simp [h1 ni, hnh2 ni], by simp [h2]⟩

/-- Closed form of the re-announcement handler for a non-zero interval, given
the answer of the ledger to the `AddPeer` call. -/
theorem reBootstrapHandler_eq (k : cfgCore L S) (n : Nat) (r : Option GoError) (la : L)
    (h0 : k.reBootstrapInterval ≠ 0)
    (hAdd : k.wrapper.AddPeer (toOnlineLocalNodeInfo k) k.ledger = (r, la)) :
    reBootstrapHandler (Event.NewEpoch n) k = Res.ok
      (if n % k.reBootstrapInterval = 0 then
        { k with ledger := la, trace := k.trace ++ reAnnouncement (toOnlineLocalNodeInfo k) r }
       else k) := by
  simp only [reBootstrapHandler, h0, if_false, cfgCore.callAddPeer, hAdd]
  by_cases hd : n % k.reBootstrapInterval = 0
  · cases r <;> simp [hd, reAnnouncement, cfgCore.log]
  · simp [hd]

/-- Closed form of the status-reconciliation handler when the snapshot fetch fails. -/
theorem statusReconcileHandler_fetch_error (k : cfgCore L S) (e : Nat) (err : GoError) (l2 : L)
    (hFetch : k.wrapper.GetNetMapByEpoch e k.ledger = (Except.error err, l2)) :
    statusReconcileHandler (Event.NewEpoch e) k = Res.ok
      { k with
        ledger := l2
        trace := k.trace ++
          [Action.GetNetMapByEpoch e (Except.error err),
           Action.log Level.Error "could not update node state on new epoch"
             [Field.uint64 "epoch" e, Field.str "error" err]] } := by
  simp [statusReconcileHandler, netmapLocalNodeState, cfgCore.callGetNetMapByEpoch, hFetch,
    cfgCore.log]

/-- Closed form of the run of the registered handlers on a new-epoch event whose
snapshot fetch fails. -/
theorem runHandlers_fetch_error (enabled : Bool) (k : cfgCore L S) (e : Nat)
    (r : Option GoError) (la : L) (err : GoError) (l2 : L)
    (hk : enabled = true → k.reBootstrapInterval ≠ 0)
    (hAdd : k.wrapper.AddPeer (toOnlineLocalNodeInfo k) k.ledger = (r, la))
    (hFetch : k.wrapper.GetNetMapByEpoch e
        (if enabled = true ∧ e % k.reBootstrapInterval = 0 then la else k.ledger)
      = (Except.error err, l2)) :
    runHandlers (newEpochHandlers enabled) (Event.NewEpoch e) k = Res.ok
      { k with
        state := { epoch := e }
        ledger := l2
        trace := k.trace ++ (Action.setCurrentEpoch e ::
          ((if enabled = true ∧ e % k.reBootstrapInterval = 0 then
              reAnnouncement (toOnlineLocalNodeInfo k) r else []) ++
           [Action.GetNetMapByEpoch e (Except.error err),
            Action.log Level.Error "could not update node state on new epoch"
              [Field.uint64 "epoch" e, Field.str "error" err]])) } := by
  cases enabled with
  | false =>
    simp only [Bool.false_eq_true, false_and, if_false] at hFetch
    simp only [newEpochHandlers, runHandlers, epochAdvanceHandler, Res.bind, Bool.false_eq_true,
      if_false, List.nil_append, false_and]
    rw [statusReconcileHandler_fetch_error _ e err l2]
    · simp [cfgCore.setCurrentEpoch, networkState.setCurrentEpoch]
    · exact hFetch
  | true =>
    have h0 : k.reBootstrapInterval ≠ 0 := hk rfl
    have h2 := reBootstrapHandler_eq (k.setCurrentEpoch e) e r la h0 hAdd
    have hi : (k.setCurrentEpoch e).reBootstrapInterval = k.reBootstrapInterval := rfl
    have hto : toOnlineLocalNodeInfo (k.setCurrentEpoch e) = toOnlineLocalNodeInfo k := rfl
    rw [hi, hto] at h2
    simp only [true_and] at hFetch ⊢
    simp only [newEpochHandlers, runHandlers, epochAdvanceHandler, Res.bind, if_true,
      List.cons_append, List.nil_append, h2]
    by_cases hd : e % k.reBootstrapInterval = 0
    · simp only [hd, if_true] at hFetch ⊢
      rw [statusReconcileHandler_fetch_error _ e err l2]
      · simp [cfgCore.setCurrentEpoch, networkState.setCurrentEpoch]
      · exact hFetch
    · simp only [hd, if_false] at hFetch ⊢
      rw [statusReconcileHandler_fetch_error _ e err l2]
      · simp [cfgCore.setCurrentEpoch, networkState.setCurrentEpoch]
      · exact hFetch

/-- Registration appends to the handler list of the tag and touches nothing else. -/
theorem addHandler_ok [DecidableEq T] (typeFromString : String → T) (c : cfg T P L S)
    (sTyp : String) (h : Handler L S) :
    ∃ c1, addNetmapNotificationHandler typeFromString c sTyp h = Res.ok c1 ∧
      (∀ t, GoMap.get c1.subscribers t []
          = if t = typeFromString sTyp then GoMap.get c.subscribers t [] ++ [h]
            else GoMap.get c.subscribers t []) ∧
      (GoMap.get c1.subscribers (typeFromString sTyp) []).length
          = (GoMap.get c.subscribers (typeFromString sTyp) []).length + 1 ∧
      c1.parsers = c.parsers ∧ c1.core = c.core := by
  cases hs : c.subscribers with
  | none =>
    refine ⟨_, by simp [addNetmapNotificationHandler, hs, GoMap.set, GoMap.make]; rfl, ?_, ?_, ?_, ?_⟩
    · intro t
      by_cases ht : t = typeFromString sTyp <;> simp [GoMap.get, GoMap.make, ht]
    · simp [GoMap.get, GoMap.make]
    · simp [hs]
    · simp [hs]
  | some f =>
    refine ⟨_, by simp [addNetmapNotificationHandler, hs, GoMap.set]; rfl, ?_, ?_, ?_, ?_⟩
    · intro t
      by_cases ht : t = typeFromString sTyp <;> simp [GoMap.get, ht]
    · simp [GoMap.get]
    · simp [hs]
    · simp [hs]

/-- On a registry without new-epoch handlers `initNetmapService` completes and
leaves exactly its own handlers on the new-epoch tag, in registration order. -/
theorem initNetmapService_ok [DecidableEq T] (typeFromString : String → T) (newEpochNotification : String)
    (c : cfg T P L S)
    (hFresh : GoMap.get c.subscribers (typeFromString newEpochNotification) [] = []) :
    ∃ c1, initNetmapService typeFromString newEpochNotification c = Res.ok c1 ∧
      GoMap.get c1.subscribers (typeFromString newEpochNotification) []
        = newEpochHandlers c.core.reBootstrapEnabled ∧
      c1.parsers = c.parsers := by
  obtain ⟨c1, h1, hget1, -, hp1, hcore1⟩ := addHandler_ok typeFromString
    ({ c with core := (c.core.callHandleLocalNodeInfo (some
        { address := c.core.localAddr, publicKey := c.core.key,
          attributes := c.core.attributes, state := NodeState.Offline })).registerNetmapService } :
      cfg T P L S) newEpochNotification epochAdvanceHandler
  have hen : c1.core.reBootstrapEnabled = c.core.reBootstrapEnabled := by
    rw [hcore1]; rfl
  have hg1 := hget1 (typeFromString newEpochNotification)
  simp only [if_true, hFresh, List.nil_append] at hg1
  cases hb : c.core.reBootstrapEnabled with
  | false =>
    obtain ⟨c3, h3, hget3, -, hp3, -⟩ := addHandler_ok typeFromString c1 newEpochNotification
      statusReconcileHandler
    refine ⟨c3, ?_, ?_, ?_⟩
    · simp only [initNetmapService, addNewEpochNotificationHandler, h1, Res.bind, hen, hb, h3,
        Bool.false_eq_true, if_false]
    · have hg3 := hget3 (typeFromString newEpochNotification)
      simp only [if_true, hg1] at hg3
      simp [hg3, newEpochHandlers]
    · rw [hp3, hp1]
  | true =>
    obtain ⟨c2, h2, hget2, -, hp2, -⟩ := addHandler_ok typeFromString c1 newEpochNotification
      reBootstrapHandler
    obtain ⟨c3, h3, hget3, -, hp3, -⟩ := addHandler_ok typeFromString c2 newEpochNotification
      statusReconcileHandler
    refine ⟨c3, ?_, ?_, ?_⟩
    · simp only [initNetmapService, addNewEpochNotificationHandler, h1, Res.bind, hen, hb, h2, h3,
        if_true]
    · have hg2 := hget2 (typeFromString newEpochNotification)
      have hg3 := hget3 (typeFromString newEpochNotification)
      simp only [if_true, hg1] at hg2
      simp only [if_true, hg2] at hg3
      simp [hg3, newEpochHandlers]
    · rw [hp3, hp2, hp1]

/-- Symbolic delivery of one new-epoch event to the registered handlers. -/
theorem deliver_newEpoch (typeFromString : String → T) (newEpochNotification : String)
    (enabled : Bool) (c : cfg T P L S) (n : Nat)
    (hreg : GoMap.get c.subscribers (typeFromString newEpochNotification) []
      = newEpochHandlers enabled)
    (hk : enabled = true → c.core.reBootstrapInterval ≠ 0) :
    ∃ c2 seg, deliver typeFromString newEpochNotification (Event.NewEpoch n) c = Res.ok c2 ∧
      c2.subscribers = c.subscribers ∧
      c2.core.CurrentEpoch = n ∧ c2.core.reBootstrapInterval = c.core.reBootstrapInterval ∧
      c2.core.trace = c.core.trace ++ seg ∧
      seg.filter Action.isAddPeer
        = (if enabled = true ∧ n % c.core.reBootstrapInterval = 0 then
            [Action.AddPeer (toOnlineLocalNodeInfo c.core)
              (c.core.wrapper.AddPeer (toOnlineLocalNodeInfo c.core) c.core.ledger).1] else []) ∧
      eventEffects enabled c.core.reBootstrapInterval n seg := by
  obtain ⟨k2, seg, hrun, hep, hint, htr, hex, heff⟩ := runHandlers_newEpoch enabled c.core n hk
  refine ⟨{ c with core := k2 }, seg, ?_, rfl, hep, hint, htr, hex, heff⟩
  simp only [deliver, hreg, hrun, Res.map]

/-- Symbolic delivery of a sequence of new-epoch events, one at a time. -/
theorem deliverAll_newEpoch (typeFromString : String → T) (newEpochNotification : String)
    (enabled : Bool) (es : List Nat) :
    ∀ (c : cfg T P L S),
      GoMap.get c.subscribers (typeFromString newEpochNotification) []
        = newEpochHandlers enabled →
      (enabled = true → c.core.reBootstrapInterval ≠ 0) →
      ∃ c2 segs, deliverAll typeFromString newEpochNotification (es.map Event.NewEpoch) c
          = Res.ok c2 ∧
        c2.core.CurrentEpoch = es.getLast?.getD c.core.CurrentEpoch ∧
        c2.core.trace = c.core.trace ++ segs.flatten ∧
        List.Forall₂ (eventEffects enabled c.core.reBootstrapInterval) es segs := by
  induction es with
  | nil =>
    intro c _ _
    exact ⟨c, [], rfl, rfl, by simp, List.Forall₂.nil⟩
  | cons n rest ih =>
    intro c hreg hk
    obtain ⟨c1, seg, hd, hsub, hep, hint, htr, -, heff⟩ :=
      deliver_newEpoch typeFromString newEpochNotification enabled c n hreg hk
    obtain ⟨c2, segs, hrun, hep2, htr2, hall⟩ := ih c1 (by rw [hsub]; exact hreg)
      (by rw [hint]; exact hk)
    refine ⟨c2, seg :: segs, ?_, ?_, ?_, ?_⟩
    · simp only [List.map_cons, deliverAll, hd, Res.bind, hrun]
    · rw [hep2, hep]
      cases rest <;> simp [List.getLast?]
    · simp [htr2, htr]
    · rw [hint] at hall
      exact List.Forall₂.cons heff hall

/-- The number of `AddPeer` calls of a sequence of events, from the per-event counts. -/
theorem addPeer_count_of_effects (enabled : Bool) (k : Nat) (es : List Nat)
    (segs : List (List Action)) (h : List.Forall₂ (eventEffects enabled k) es segs) :
    (segs.flatten.filter Action.isAddPeer).length
      = if enabled = true then (es.filter (fun n => n % k = 0)).length else 0 := by
  induction h with
  | nil => simp
  | @cons n seg rest segs hhead _ ih =>
    simp only [List.flatten_cons, List.filter_append, List.length_append, hhead.1, ih]
    cases enabled with
    | false => simp
    | true =>
      by_cases hd : n % k = 0
      · simp [List.filter_cons, hd]; omega
      · simp [List.filter_cons, hd]

end Lemmas

/-! ## Claims -/

section Claims

variable {T P L S : Type}

/-- C9. Registering a handler always succeeds, also on a nil registry, and
yields a registry in which the handler list of the tag is the previous list
with the new handler appended at the end (hence one longer), the handler list
of every other tag is as before, and the parsers and the rest of the
configuration are unchanged. -/
theorem addNetmapNotificationHandler_appends [DecidableEq T] (typeFromString : String → T) (c : cfg T P L S)
    (sTyp : String) (h : Handler L S) :
    ∃ c1, addNetmapNotificationHandler typeFromString c sTyp h = Res.ok c1 ∧
      (∀ t, GoMap.get c1.subscribers t []
          = if t = typeFromString sTyp then GoMap.get c.subscribers t [] ++ [h]
            else GoMap.get c.subscribers t []) ∧
      (GoMap.get c1.subscribers (typeFromString sTyp) []).length
          = (GoMap.get c.subscribers (typeFromString sTyp) []).length + 1 ∧
      c1.parsers = c.parsers ∧ c1.core = c.core :=
  addHandler_ok typeFromString c sTyp h

/-- C3 (as amended). When the snapshot fetch for epoch `e` succeeds and no entry
of the snapshot has the public key of the local node, status reconciliation
completes and invokes the local-status callback exactly once, with an absent
(nil) descriptor; the callback state after the event is what the callback
makes of that absent descriptor, and the epoch counter is untouched. -/
theorem statusReconcile_absent_calls_callback_with_nil (c : cfgCore L S) (e : Nat) (nm : Netmap)
    (l1 : L) (hFetch : c.wrapper.GetNetMapByEpoch e c.ledger = (Except.ok nm, l1))
    (hAbsent : ∀ n ∈ nm.Nodes, n.PublicKey ≠ c.key) :
    ∃ c1, statusReconcileHandler (Event.NewEpoch e) c = Res.ok c1 ∧
      c1.trace = c.trace ++
        [Action.GetNetMapByEpoch e (Except.ok nm), Action.handleLocalNodeInfo none] ∧
      c1.localSt = c.handleLocalNodeInfo none c.localSt ∧
      c1.state = c.state ∧ c1.ledger = l1 := by
  have hnone : localNodeInfoFromNetmap.loop c.key nm.Nodes = none := by
    rw [loop_eq_find]
    simp only [Option.map_eq_none', List.find?_eq_none]
    intro n hn
    simpa using hAbsent n hn
  simp only [statusReconcileHandler, netmapLocalNodeState, cfgCore.callGetNetMapByEpoch, hFetch,
    localNodeInfoFromNetmap, hnone]
  refine ⟨_, rfl, ?_, ?_, ?_, ?_⟩ <;> simp [cfgCore.callHandleLocalNodeInfo]

/-- C4. When the snapshot fetch for epoch `e` succeeds and the first entry in
snapshot order whose public key equals the marshalled public key of the local
node is `n`, with state Online, status reconciliation fetches the snapshot of
epoch `e` (one fetch, of that epoch) and passes the descriptor of `n`, whose
state is Online, to the local-status callback. -/
theorem statusReconcile_present_online (c : cfgCore L S) (e : Nat) (nm : Netmap) (l1 : L)
    (n : Node) (hFetch : c.wrapper.GetNetMapByEpoch e c.ledger = (Except.ok nm, l1))
    (hFirst : nm.Nodes.find? (fun m => decide (m.PublicKey = c.key)) = some n)
    (hOnline : n.NodeInfo.state = NodeState.Online) :
    ∃ c1, statusReconcileHandler (Event.NewEpoch e) c = Res.ok c1 ∧
      c1.trace = c.trace ++
        [Action.GetNetMapByEpoch e (Except.ok nm), Action.handleLocalNodeInfo (some n.NodeInfo)] ∧
      NodeInfo.State (some n.NodeInfo) = NodeState.Online ∧
      c1.localSt = c.handleLocalNodeInfo (some n.NodeInfo) c.localSt := by
  have hsome : localNodeInfoFromNetmap.loop c.key nm.Nodes = some n.NodeInfo := by
    rw [loop_eq_find, hFirst]; rfl
  simp only [statusReconcileHandler, netmapLocalNodeState, cfgCore.callGetNetMapByEpoch, hFetch,
    localNodeInfoFromNetmap, hsome]
  refine ⟨_, rfl, ?_, ?_, ?_⟩
  · simp [cfgCore.callHandleLocalNodeInfo]
  · simpa [NodeInfo.State] using hOnline
  · simp [cfgCore.callHandleLocalNodeInfo]

/-- C6. When `Epoch()` returns `v` and the fetch of the snapshot of epoch `v`
that follows succeeds, `initState` completes, `CurrentEpoch()` then reads `v`
(so it reads zero only when `v` is zero), and the effects are, in this order:
the two ledger calls, the propagation of the resolved descriptor to the status
callback, the log line, and last the store to the epoch counter. -/
theorem initState_sets_fetched_epoch (c : cfgCore L S) (v : Nat) (l1 : L) (nm : Netmap) (l2 : L)
    (hEpoch : c.wrapper.Epoch c.ledger = (Except.ok v, l1))
    (hFetch : c.wrapper.GetNetMapByEpoch v l1 = (Except.ok nm, l2)) :
    ∃ c1, initState c = Res.ok c1 ∧ c1.CurrentEpoch = v ∧ (c1.CurrentEpoch = 0 ↔ v = 0) ∧
      c1.trace = c.trace ++
        [Action.Epoch (Except.ok v), Action.GetNetMapByEpoch v (Except.ok nm),
         Action.handleNodeInfoStatus (localNodeInfoFromNetmap c nm),
         Action.log Level.Info "initial network state"
           [Field.uint64 "epoch" v,
            Field.stringer "state" (NodeInfo.State (localNodeInfoFromNetmap c nm))],
         Action.setCurrentEpoch v] ∧
      c1.localSt = c.handleNodeInfoStatus (localNodeInfoFromNetmap c nm) c.localSt ∧
      c1.ledger = l2 :=
  initState_ok c v l1 nm l2 hEpoch hFetch

/-- C8. `SetNetmapStatus` with the Online status is the Bootstrap operation of
the spec: the same single `AddPeer` call with the local descriptor marked
Online, the same state afterwards (the epoch counter and the callback state are
untouched), and the error of that call as result. The announcement made by
`bootstrapNode` after `initState` is this same action, with its error wrapped
and made fatal. -/
theorem SetNetmapStatus_online_is_bootstrap (c : cfgCore L S) :
    SetNetmapStatus c NetmapStatus.ONLINE = Bootstrap_spec c ∧
    (SetNetmapStatus c NetmapStatus.ONLINE).1
      = (c.wrapper.AddPeer (toOnlineLocalNodeInfo c) c.ledger).1 ∧
    (SetNetmapStatus c NetmapStatus.ONLINE).2.state = c.state ∧
    (SetNetmapStatus c NetmapStatus.ONLINE).2.localSt = c.localSt ∧
    (toOnlineLocalNodeInfo c).state = NodeState.Online ∧
    bootstrapNode c = (initState c).bind fun c1 =>
      fatalOnErr (errorsWrap (SetNetmapStatus c1 NetmapStatus.ONLINE).1 "bootstrap error")
        (SetNetmapStatus c1 NetmapStatus.ONLINE).2 := by
  refine ⟨rfl, rfl, rfl, rfl, rfl, rfl⟩

/-- C10 (as amended). With a re-bootstrap interval greater than zero the
re-announcement handler completes on every new-epoch event: the modulus is
never taken by zero. The handler itself does not validate the interval. -/
theorem reBootstrapHandler_no_fault_of_pos (c : cfgCore L S) (n : Nat)
    (hpos : 0 < c.reBootstrapInterval) :
    ∃ c1, reBootstrapHandler (Event.NewEpoch n) c = Res.ok c1 := by
  have h0 : c.reBootstrapInterval ≠ 0 := Nat.pos_iff_ne_zero.mp hpos
  simp only [reBootstrapHandler, h0, if_false]
  split
  · split
    · exact ⟨_, rfl⟩
    · exact ⟨_, rfl⟩
  · exact ⟨_, rfl⟩

/-- C7. Startup (`bootstrapNode`) aborts if and only if the ledger fails the
initial `Epoch()` call, or answers it and fails the snapshot fetch of that
epoch, or answers both and fails the `AddPeer` announcement; an abort is always
the fatal exit. When `Epoch()` fails, startup ends fatally right after that
call; when the snapshot fetch fails, right after the two reads: in both cases
the epoch counter is not set and `AddPeer` is not called. When both reads
succeed, the effects are the two reads, the status callback, the log line, the
store of the fetched epoch and then the one `AddPeer` call with the local
descriptor marked Online, and startup aborts exactly when that call fails. -/
theorem bootstrapNode_aborts_iff_call_fails (c : cfgCore L S) :
    ((bootstrapNode c).aborted = true ↔
      ((∃ e1 l1, c.wrapper.Epoch c.ledger = (Except.error e1, l1)) ∨
       (∃ v l1 e2 l2, c.wrapper.Epoch c.ledger = (Except.ok v, l1) ∧
          c.wrapper.GetNetMapByEpoch v l1 = (Except.error e2, l2)) ∨
       (∃ v l1 nm l2 e3 l3, c.wrapper.Epoch c.ledger = (Except.ok v, l1) ∧
          c.wrapper.GetNetMapByEpoch v l1 = (Except.ok nm, l2) ∧
          c.wrapper.AddPeer (toOnlineLocalNodeInfo { c with
              localSt := c.handleNodeInfoStatus (localNodeInfoFromNetmap c nm) c.localSt }) l2
            = (some e3, l3)))) ∧
    ((bootstrapNode c).aborted = true ↔
      ∃ msg, (bootstrapNode c).fault? = some (Fault.fatal msg)) ∧
    (∀ e1 l1, c.wrapper.Epoch c.ledger = (Except.error e1, l1) →
      bootstrapNode c = Res.fault
        (Fault.fatal ("could not initialize current epoch number" ++ ": " ++ e1))
        { c with ledger := l1, trace := c.trace ++ [Action.Epoch (Except.error e1)] }) ∧
    (∀ v l1 e2 l2, c.wrapper.Epoch c.ledger = (Except.ok v, l1) →
      c.wrapper.GetNetMapByEpoch v l1 = (Except.error e2, l2) →
      bootstrapNode c = Res.fault (Fault.fatal ("could not init network state" ++ ": " ++ e2))
        { c with ledger := l2, trace := c.trace ++
            [Action.Epoch (Except.ok v), Action.GetNetMapByEpoch v (Except.error e2)] }) ∧
    (∀ v l1 nm l2 r3 l3, c.wrapper.Epoch c.ledger = (Except.ok v, l1) →
      c.wrapper.GetNetMapByEpoch v l1 = (Except.ok nm, l2) →
      c.wrapper.AddPeer (toOnlineLocalNodeInfo { c with
          localSt := c.handleNodeInfoStatus (localNodeInfoFromNetmap c nm) c.localSt }) l2
        = (r3, l3) →
      (bootstrapNode c).st.trace = c.trace ++
        [Action.Epoch (Except.ok v), Action.GetNetMapByEpoch v (Except.ok nm),
         Action.handleNodeInfoStatus (localNodeInfoFromNetmap c nm),
         Action.log Level.Info "initial network state"
           [Field.uint64 "epoch" v,
            Field.stringer "state" (NodeInfo.State (localNodeInfoFromNetmap c nm))],
         Action.setCurrentEpoch v,
         Action.AddPeer (toOnlineLocalNodeInfo { c with
           localSt := c.handleNodeInfoStatus (localNodeInfoFromNetmap c nm) c.localSt }) r3] ∧
      (bootstrapNode c).st.CurrentEpoch = v ∧
      (bootstrapNode c).st.ledger = l3 ∧
      (bootstrapNode c).fault? = r3.map (fun e3 => Fault.fatal ("bootstrap error" ++ ": " ++ e3))) := by
  rcases h1 : c.wrapper.Epoch c.ledger with ⟨r1, l1⟩
  cases r1 with
  | error e1 =>
    have hb : bootstrapNode c = Res.fault
        (Fault.fatal ("could not initialize current epoch number" ++ ": " ++ e1))
        { c with ledger := l1, trace := c.trace ++ [Action.Epoch (Except.error e1)] } := by
      simp [bootstrapNode, initState, cfgCore.callEpoch, h1, fatalOnErr, errorsWrap, Res.bind]
    refine ⟨?_, ?_, ?_, ?_, ?_⟩
    · simp [hb, Res.aborted]
    · simp [hb, Res.aborted, Res.fault?]
    · intro a b h
      cases h
      exact hb
    · intro v a e2 l2 h
      cases h
    · intro v a nm l2 r3 l3 h
      cases h
  | ok v =>
    rcases h2 : c.wrapper.GetNetMapByEpoch v l1 with ⟨r2, l2⟩
    cases r2 with
    | error e2 =>
      have hb : bootstrapNode c = Res.fault
          (Fault.fatal ("could not init network state" ++ ": " ++ e2))
          { c with ledger := l2, trace := c.trace ++
              [Action.Epoch (Except.ok v), Action.GetNetMapByEpoch v (Except.error e2)] } := by
        simp [bootstrapNode, initState, cfgCore.callEpoch, h1, netmapLocalNodeState,
          cfgCore.callGetNetMapByEpoch, h2, fatalOnErr, errorsWrap, Res.bind]
      refine ⟨?_, ?_, ?_, ?_, ?_⟩
      · rw [hb]
        exact ⟨fun _ => Or.inr (Or.inl ⟨v, l1, e2, l2, rfl, h2⟩), fun _ => rfl⟩
      · simp [hb, Res.aborted, Res.fault?]
      · intro a b h
        cases h
      · intro v1 a e b h h3
        cases h
        rw [h2] at h3
        cases h3
        exact hb
      · intro v1 a nm b r3 l3 h h3
        cases h
        rw [h2] at h3
        cases h3
    | ok nm =>
      have hinit := initState_eq c v l1 nm l2 h1 h2
      rcases h3 : c.wrapper.AddPeer (toOnlineLocalNodeInfo { c with
          localSt := c.handleNodeInfoStatus (localNodeInfoFromNetmap c nm) c.localSt }) l2
        with ⟨r3, l3⟩
      have hb : bootstrapNode c = fatalOnErr (errorsWrap r3 "bootstrap error")
          { c with
            ledger := l3
            state := { epoch := v }
            localSt := c.handleNodeInfoStatus (localNodeInfoFromNetmap c nm) c.localSt
            trace := c.trace ++
              [Action.Epoch (Except.ok v), Action.GetNetMapByEpoch v (Except.ok nm),
               Action.handleNodeInfoStatus (localNodeInfoFromNetmap c nm),
               Action.log Level.Info "initial network state"
                 [Field.uint64 "epoch" v,
                  Field.stringer "state" (NodeInfo.State (localNodeInfoFromNetmap c nm))],
               Action.setCurrentEpoch v,
               Action.AddPeer (toOnlineLocalNodeInfo { c with
                 localSt := c.handleNodeInfoStatus (localNodeInfoFromNetmap c nm) c.localSt })
                 r3] } := by
        simp only [bootstrapNode, hinit, Res.bind, cfgCore.callAddPeer]
        have hto : ∀ (l : L) (st : networkState) (tr : List Action),
            toOnlineLocalNodeInfo ({ c with
              ledger := l, state := st,
              localSt := c.handleNodeInfoStatus (localNodeInfoFromNetmap c nm) c.localSt,
              trace := tr } : cfgCore L S)
            = toOnlineLocalNodeInfo { c with
              localSt := c.handleNodeInfoStatus (localNodeInfoFromNetmap c nm) c.localSt } :=
          fun _ _ _ => rfl
        simp [hto, h3]
      refine ⟨?_, ?_, ?_, ?_, ?_⟩
      · rw [hb]
        cases r3 with
        | some e3 =>
          exact ⟨fun _ => Or.inr (Or.inr ⟨v, l1, nm, l2, e3, l3, rfl, h2, h3⟩), fun _ => rfl⟩
        | none =>
          refine ⟨fun h => by simp [fatalOnErr, errorsWrap, Res.aborted] at h, fun h => ?_⟩
          rcases h with ⟨_, _, h⟩ | ⟨_, _, _, _, h, h4⟩ | ⟨_, _, _, _, _, _, h, h4, h5⟩
          · cases h
          · cases h
            rw [h2] at h4
            cases h4
          · cases h
            rw [h2] at h4
            cases h4
            rw [h3] at h5
            cases h5
      · cases r3 <;> simp [hb, fatalOnErr, errorsWrap, Res.aborted, Res.fault?]
      · intro a b h
        cases h
      · intro v1 a e b h h4
        cases h
        rw [h2] at h4
        cases h4
      · intro v1 a nm1 b r4 l4 h h4 h5
        cases h
        rw [h2] at h4
        cases h4
        rw [h3] at h5
        cases h5
        cases r3 <;>
          simp [hb, fatalOnErr, errorsWrap, Res.st, Res.fault?, cfgCore.CurrentEpoch,
            networkState.CurrentEpoch]

/-- C1. Let `initNetmapService` run on a registry without new-epoch handlers, and
let new-epoch events be delivered one at a time to the handlers it registered,
starting from any core state `k` (any ledger, any callbacks) whose re-bootstrap
interval is not zero when re-bootstrap was enabled at registration. Then every
delivery completes, and after the delivery of any non-empty sequence of events
`CurrentEpoch()` equals the epoch number of the last delivered event. The
sequence `es ++ [e]` ranges over every non-empty prefix of a run, so this holds
after each delivery; the epoch numbers need not even be increasing. -/
theorem currentEpoch_is_last_delivered [DecidableEq T] (typeFromString : String → T)
    (newEpochNotification : String) (c0 : cfg T P L S) (k : cfgCore L S) (es : List Nat) (e : Nat)
    (hFresh : GoMap.get c0.subscribers (typeFromString newEpochNotification) [] = [])
    (hInterval : c0.core.reBootstrapEnabled = true → k.reBootstrapInterval ≠ 0) :
    ∃ c1 c2, initNetmapService typeFromString newEpochNotification c0 = Res.ok c1 ∧
      deliverAll typeFromString newEpochNotification ((es ++ [e]).map Event.NewEpoch)
        { c1 with core := k } = Res.ok c2 ∧
      c2.core.CurrentEpoch = e := by
  obtain ⟨c1, hinit, hreg, -⟩ :=
    initNetmapService_ok typeFromString newEpochNotification c0 hFresh
  obtain ⟨c2, segs, hrun, hep, -, -⟩ :=
    deliverAll_newEpoch typeFromString newEpochNotification c0.core.reBootstrapEnabled
      (es ++ [e]) ({ c1 with core := k } : cfg T P L S) hreg hInterval
  refine ⟨c1, c2, hinit, hrun, ?_⟩
  rw [hep]
  simp

/-- C2. Let `initNetmapService` run on a registry without new-epoch handlers, and
let new-epoch events be delivered to the handlers it registered, starting from
any core state `k` with a re-bootstrap interval greater than zero.

One event, with epoch `n`: the delivery completes, and the `AddPeer` calls among
its effects are exactly one call, with the local descriptor marked Online,
when re-bootstrap was enabled at registration and `n mod interval = 0`, and
none otherwise.

A sequence of events with epochs `es`, one at a time: every delivery completes
and the effects split into one segment per event, the segment of epoch `m`
holding one `AddPeer` call when enabled and `m mod interval = 0` and none
otherwise, each with a descriptor marked Online; so the number of `AddPeer`
calls of the sequence is the number of delivered epochs divisible by the
interval when re-bootstrap is enabled, and zero when it is disabled. -/
theorem reBootstrap_fires_iff_divisible [DecidableEq T] (typeFromString : String → T)
    (newEpochNotification : String) (c0 : cfg T P L S) (k : cfgCore L S) (n : Nat)
    (es : List Nat)
    (hFresh : GoMap.get c0.subscribers (typeFromString newEpochNotification) [] = [])
    (hPos : 0 < k.reBootstrapInterval) :
    ∃ c1, initNetmapService typeFromString newEpochNotification c0 = Res.ok c1 ∧
      (∃ c2 seg, deliver typeFromString newEpochNotification (Event.NewEpoch n)
          { c1 with core := k } = Res.ok c2 ∧
        c2.core.trace = k.trace ++ seg ∧
        seg.filter Action.isAddPeer
          = (if c0.core.reBootstrapEnabled = true ∧ n % k.reBootstrapInterval = 0 then
              [Action.AddPeer (toOnlineLocalNodeInfo k)
                (k.wrapper.AddPeer (toOnlineLocalNodeInfo k) k.ledger).1] else []) ∧
        (toOnlineLocalNodeInfo k).state = NodeState.Online) ∧
      (∃ c2 segs, deliverAll typeFromString newEpochNotification (es.map Event.NewEpoch)
          { c1 with core := k } = Res.ok c2 ∧
        c2.core.trace = k.trace ++ segs.flatten ∧
        List.Forall₂ (fun m seg =>
          (seg.filter Action.isAddPeer).length
            = (if c0.core.reBootstrapEnabled = true ∧ m % k.reBootstrapInterval = 0
                then 1 else 0) ∧
          (∀ ni r, Action.AddPeer ni r ∈ seg → ni.state = NodeState.Online)) es segs ∧
        (segs.flatten.filter Action.isAddPeer).length
          = (if c0.core.reBootstrapEnabled = true then
              (es.filter (fun m => m % k.reBootstrapInterval = 0)).length else 0)) := by
  have h0 : c0.core.reBootstrapEnabled = true → k.reBootstrapInterval ≠ 0 :=
    fun _ => Nat.pos_iff_ne_zero.mp hPos
  obtain ⟨c1, hinit, hreg, -⟩ :=
    initNetmapService_ok typeFromString newEpochNotification c0 hFresh
  obtain ⟨c2, seg, hrun1, -, -, -, htr1, hex, -⟩ :=
    deliver_newEpoch typeFromString newEpochNotification c0.core.reBootstrapEnabled
      ({ c1 with core := k } : cfg T P L S) n hreg h0
  obtain ⟨c3, segs, hrun, -, htr, hall⟩ :=
    deliverAll_newEpoch typeFromString newEpochNotification c0.core.reBootstrapEnabled
      es ({ c1 with core := k } : cfg T P L S) hreg h0
  refine ⟨c1, hinit, ⟨c2, seg, hrun1, htr1, hex, rfl⟩, ⟨c3, segs, hrun, htr, ?_, ?_⟩⟩
  · exact List.Forall₂.imp (fun _ _ h => ⟨h.1, h.2.1⟩) hall
  · exact addPeer_count_of_effects _ _ _ _ hall

/-- C5. Let `initNetmapService` run on a registry without new-epoch handlers, and
let one new-epoch event with epoch `e` be delivered, starting from any core
state `k` whose re-bootstrap interval is not zero when re-bootstrap was enabled
at registration. Let `r` be the answer of the ledger to the re-announcement
`AddPeer` call, and let the ledger answer the fetch `GetNetMapByEpoch(e)` made
by status reconciliation (after the re-announcement, when there is one) with
an error `err`. Then the delivery completes normally (the error does not leave
the handler); `CurrentEpoch()` is `e`; the effects are, in order, the store of
`e`, the re-announcement (the `AddPeer` call with the local descriptor marked
Online and a warning when it failed) exactly when re-bootstrap is enabled and
`e mod interval = 0`, the fetch of the snapshot of epoch `e`, and the error
log line with the epoch number and the error; the local-status callback is
not invoked and the callback state is as before the event. -/
theorem fetch_failure_skips_only_reconciliation [DecidableEq T] (typeFromString : String → T)
    (newEpochNotification : String) (c0 : cfg T P L S) (k : cfgCore L S) (e : Nat)
    (r : Option GoError) (la : L) (err : GoError) (l2 : L)
    (hFresh : GoMap.get c0.subscribers (typeFromString newEpochNotification) [] = [])
    (hInterval : c0.core.reBootstrapEnabled = true → k.reBootstrapInterval ≠ 0)
    (hAdd : k.wrapper.AddPeer (toOnlineLocalNodeInfo k) k.ledger = (r, la))
    (hFetch : k.wrapper.GetNetMapByEpoch e
        (if c0.core.reBootstrapEnabled = true ∧ e % k.reBootstrapInterval = 0 then la
         else k.ledger)
      = (Except.error err, l2)) :
    ∃ c1 c2 seg, initNetmapService typeFromString newEpochNotification c0 = Res.ok c1 ∧
      deliver typeFromString newEpochNotification (Event.NewEpoch e) { c1 with core := k }
        = Res.ok c2 ∧
      c2.core.CurrentEpoch = e ∧
      c2.core.localSt = k.localSt ∧
      c2.core.ledger = l2 ∧
      c2.core.trace = k.trace ++ seg ∧
      seg = Action.setCurrentEpoch e ::
        ((if c0.core.reBootstrapEnabled = true ∧ e % k.reBootstrapInterval = 0 then
            reAnnouncement (toOnlineLocalNodeInfo k) r else []) ++
         [Action.GetNetMapByEpoch e (Except.error err),
          Action.log Level.Error "could not update node state on new epoch"
            [Field.uint64 "epoch" e, Field.str "error" err]]) ∧
      (∀ ni, Action.handleLocalNodeInfo ni ∉ seg) ∧
      seg.filter Action.isAddPeer
        = (if c0.core.reBootstrapEnabled = true ∧ e % k.reBootstrapInterval = 0 then
            [Action.AddPeer (toOnlineLocalNodeInfo k) r] else []) ∧
      (toOnlineLocalNodeInfo k).state = NodeState.Online := by
  obtain ⟨c1, hinit, hreg, -⟩ :=
    initNetmapService_ok typeFromString newEpochNotification c0 hFresh
  have hrun := runHandlers_fetch_error c0.core.reBootstrapEnabled k e r la err l2 hInterval
    hAdd hFetch
  refine ⟨c1, ?_⟩
  simp only [deliver, hreg, hrun, Res.map]
  refine ⟨_, _, hinit, rfl, rfl, rfl, rfl, rfl, rfl, ?_, ?_, rfl⟩
  · intro ni
    by_cases hc : c0.core.reBootstrapEnabled = true ∧ e % k.reBootstrapInterval = 0
    · cases r <;> simp [hc, reAnnouncement]
    · simp [hc]
  · by_cases hc : c0.core.reBootstrapEnabled = true ∧ e % k.reBootstrapInterval = 0
    · cases r <;> simp [hc, reAnnouncement, Action.isAddPeer]
    · simp [hc, Action.isAddPeer]

end Claims

/-! ## Instances at concrete inputs -/

section Instances

/-- Instance of C1: interval 3, events for the epochs 1, 2, 3 delivered in order;
the counter then reads 3. -/
theorem currentEpoch_is_last_delivered_witness :
    ∃ c1 c2, initNetmapService id "NewEpoch" (exCfg true 3 exLedgerAbsent) = Res.ok c1 ∧
      deliverAll id "NewEpoch" (([1, 2] ++ [3]).map Event.NewEpoch)
        { c1 with core := exCore true 3 exLedgerAbsent } = Res.ok c2 ∧
      c2.core.CurrentEpoch = 3 :=
  currentEpoch_is_last_delivered id "NewEpoch" (exCfg true 3 exLedgerAbsent)
    (exCore true 3 exLedgerAbsent) [1, 2] 3 rfl (fun _ => by decide)

/-- Instance of C2: interval 3, events for the epochs 1, 2, 3 delivered in order
(and the single event of epoch 3). The general statement applies, and
evaluating the run shows the whole trace: exactly one `AddPeer` call, made
while epoch 3 is processed. -/
theorem reBootstrap_fires_iff_divisible_witness :
    (∃ c1, initNetmapService id "NewEpoch" (exCfg true 3 exLedgerAbsent) = Res.ok c1 ∧
      (∃ c2 seg, deliver id "NewEpoch" (Event.NewEpoch 3)
          { c1 with core := exCore true 3 exLedgerAbsent } = Res.ok c2 ∧
        c2.core.trace = (exCore true 3 exLedgerAbsent).trace ++ seg ∧
        seg.filter Action.isAddPeer
          = (if true = true ∧ 3 % 3 = 0 then
              [Action.AddPeer (exInfo NodeState.Online) none] else []) ∧
        (exInfo NodeState.Online).state = NodeState.Online) ∧
      (∃ c2 segs, deliverAll id "NewEpoch" ([1, 2, 3].map Event.NewEpoch)
          { c1 with core := exCore true 3 exLedgerAbsent } = Res.ok c2 ∧
        c2.core.trace = (exCore true 3 exLedgerAbsent).trace ++ segs.flatten ∧
        List.Forall₂ (fun m seg =>
          (seg.filter Action.isAddPeer).length = (if true = true ∧ m % 3 = 0 then 1 else 0) ∧
          (∀ ni r, Action.AddPeer ni r ∈ seg → ni.state = NodeState.Online)) [1, 2, 3] segs ∧
        (segs.flatten.filter Action.isAddPeer).length = 1)) ∧
    ((initNetmapService id "NewEpoch" (exCfg true 3 exLedgerAbsent)).bind
        (deliverAll id "NewEpoch" ([1, 2, 3].map Event.NewEpoch))).st.core.trace =
      [Action.handleLocalNodeInfo (some (exInfo NodeState.Offline)),
       Action.RegisterNetmapServiceServer,
       Action.setCurrentEpoch 1, Action.GetNetMapByEpoch 1 (Except.ok exSnapshotAbsent),
       Action.handleLocalNodeInfo none,
       Action.setCurrentEpoch 2, Action.GetNetMapByEpoch 2 (Except.ok exSnapshotAbsent),
       Action.handleLocalNodeInfo none,
       Action.setCurrentEpoch 3, Action.AddPeer (exInfo NodeState.Online) none,
       Action.GetNetMapByEpoch 3 (Except.ok exSnapshotAbsent),
       Action.handleLocalNodeInfo none] :=
  ⟨reBootstrap_fires_iff_divisible id "NewEpoch" (exCfg true 3 exLedgerAbsent)
    (exCore true 3 exLedgerAbsent) 3 [1, 2, 3] rfl (by decide), rfl⟩

/-- Counterexample to C3 as stated: the fetch for epoch 5 succeeds, the snapshot
has no entry with the key of the local node, and yet the effects of status
reconciliation include an invocation of the local-status callback, with nil. -/
theorem statusReconcile_absent_counterexample :
    (exLedgerAbsent.GetNetMapByEpoch 5 ()).1 = Except.ok exSnapshotAbsent ∧
    (∀ n ∈ exSnapshotAbsent.Nodes, n.PublicKey ≠ (exCore false 1 exLedgerAbsent).key) ∧
    (statusReconcileHandler (Event.NewEpoch 5) (exCore false 1 exLedgerAbsent)).st.trace =
      [Action.GetNetMapByEpoch 5 (Except.ok exSnapshotAbsent), Action.handleLocalNodeInfo none] :=
  ⟨rfl, by decide, rfl⟩

/-- Instance of the amended C3 on the ledger without the example node. -/
theorem statusReconcile_absent_calls_callback_with_nil_witness :
    ∃ c1, statusReconcileHandler (Event.NewEpoch 5) (exCore false 1 exLedgerAbsent) = Res.ok c1 ∧
      c1.trace = (exCore false 1 exLedgerAbsent).trace ++
        [Action.GetNetMapByEpoch 5 (Except.ok exSnapshotAbsent), Action.handleLocalNodeInfo none] ∧
      c1.localSt = (exCore false 1 exLedgerAbsent).handleLocalNodeInfo none
        (exCore false 1 exLedgerAbsent).localSt ∧
      c1.state = (exCore false 1 exLedgerAbsent).state ∧ c1.ledger = () :=
  statusReconcile_absent_calls_callback_with_nil (exCore false 1 exLedgerAbsent) 5
    exSnapshotAbsent () rfl (by decide)

/-- Instance of C4: the example node is the second entry of the snapshot, Online. -/
theorem statusReconcile_present_online_witness :
    ∃ c1, statusReconcileHandler (Event.NewEpoch 5) (exCore false 1 exLedgerPresent) = Res.ok c1 ∧
      c1.trace = (exCore false 1 exLedgerPresent).trace ++
        [Action.GetNetMapByEpoch 5 (Except.ok exSnapshotPresent),
         Action.handleLocalNodeInfo (some (exInfo NodeState.Online))] ∧
      NodeInfo.State (some (exInfo NodeState.Online)) = NodeState.Online ∧
      c1.localSt = (exCore false 1 exLedgerPresent).handleLocalNodeInfo
        (some (exInfo NodeState.Online)) (exCore false 1 exLedgerPresent).localSt :=
  statusReconcile_present_online (exCore false 1 exLedgerPresent) 5 exSnapshotPresent ()
    { ID := 1, NodeInfo := exInfo NodeState.Online } rfl (by decide) rfl

/-- Instance of C5: re-bootstrap every 2 epochs, the event of epoch 4, a ledger
that accepts the announcement and fails the snapshot fetch. The counter is
set, the announcement is made, the fetch of epoch 4 fails and is logged, and no
callback is invoked. -/
theorem fetch_failure_skips_only_reconciliation_witness :
    ∃ c1 c2, initNetmapService id "NewEpoch" (exCfg true 2 exLedgerFetchFails) = Res.ok c1 ∧
      deliver id "NewEpoch" (Event.NewEpoch 4)
        { c1 with core := exCore true 2 exLedgerFetchFails } = Res.ok c2 ∧
      c2.core.CurrentEpoch = 4 ∧
      c2.core.localSt = (exCore true 2 exLedgerFetchFails).localSt ∧
      c2.core.trace =
        [Action.setCurrentEpoch 4, Action.AddPeer (exInfo NodeState.Online) none,
         Action.GetNetMapByEpoch 4 (Except.error "connection refused"),
         Action.log Level.Error "could not update node state on new epoch"
           [Field.uint64 "epoch" 4, Field.str "error" "connection refused"]] := by
  obtain ⟨c1, c2, seg, h1, h2, h3, h4, -, h5, h6, -, -, -⟩ :=
    fetch_failure_skips_only_reconciliation id "NewEpoch" (exCfg true 2 exLedgerFetchFails)
      (exCore true 2 exLedgerFetchFails) 4 none () "connection refused" () rfl
      (fun _ => by decide) rfl rfl
  refine ⟨c1, c2, h1, h2, h3, h4, ?_⟩
  rw [h5, h6]
  rfl

/-- Instance of C6: the ledger is at epoch 7 and the fetch of snapshot 7 succeeds. -/
theorem initState_sets_fetched_epoch_witness :
    ∃ c1, initState (exCore false 1 exLedgerPresent) = Res.ok c1 ∧ c1.CurrentEpoch = 7 ∧
      c1.trace =
        [Action.Epoch (Except.ok 7), Action.GetNetMapByEpoch 7 (Except.ok exSnapshotPresent),
         Action.handleNodeInfoStatus (some (exInfo NodeState.Online)),
         Action.log Level.Info "initial network state"
           [Field.uint64 "epoch" 7, Field.stringer "state" NodeState.Online],
         Action.setCurrentEpoch 7] := by
  obtain ⟨c1, hrun, hep, -, htr, -, -⟩ :=
    initState_sets_fetched_epoch (exCore false 1 exLedgerPresent) 7 () exSnapshotPresent ()
      rfl rfl
  exact ⟨c1, hrun, hep, htr⟩

/-- Instance of C7: a ledger that fails the initial `Epoch()` call. Startup ends
in the fatal exit right after that call. -/
theorem bootstrapNode_aborts_iff_call_fails_witness :
    bootstrapNode (exCore false 1
        (exWrapper (Except.error "connection refused") (Except.ok exSnapshotPresent) none))
      = Res.fault
        (Fault.fatal ("could not initialize current epoch number" ++ ": " ++ "connection refused"))
        { exCore false 1
            (exWrapper (Except.error "connection refused") (Except.ok exSnapshotPresent) none) with
          ledger := ()
          trace := [Action.Epoch (Except.error "connection refused")] } :=
  (bootstrapNode_aborts_iff_call_fails (exCore false 1
    (exWrapper (Except.error "connection refused") (Except.ok exSnapshotPresent) none))).2.2.1
      "connection refused" () rfl

/-- Counterexample to C10 as stated: with re-bootstrap enabled and interval 0
nothing stands between the configuration and the modulus. The handler faults
with a division by zero on the event of epoch 1, both on its own and when the
event is delivered to the handlers that `initNetmapService` registered. -/
theorem reBootstrap_zero_interval_counterexample :
    (reBootstrapHandler (Event.NewEpoch 1) (exCore true 0 exLedgerPresent)).fault?
      = some Fault.divideByZero ∧
    ((initNetmapService id "NewEpoch" (exCfg true 0 exLedgerPresent)).bind
        (deliver id "NewEpoch" (Event.NewEpoch 1))).fault? = some Fault.divideByZero :=
  ⟨rfl, rfl⟩

/-- Instance of the amended C10: interval 3, the event of epoch 6. -/
theorem reBootstrapHandler_no_fault_of_pos_witness :
    ∃ c1, reBootstrapHandler (Event.NewEpoch 6) (exCore true 3 exLedgerPresent) = Res.ok c1 :=
  reBootstrapHandler_no_fault_of_pos (exCore true 3 exLedgerPresent) 6 (by decide)

end Instances

end NeoFS
